import Mathlib

/-!
Verification of the PLAMS third-party/ADF interface adapters
(`interfaces/thirdparty/cp2k.py`, `interfaces/thirdparty/orca.py`,
`interfaces/adfsuite/adf.py`).

The settings container is modelled as a mutually inductive tree of
Python-like values; serializers are translated from the Python source
function by function.  External collaborators that are not part of the
repository sources (the `Settings`/`Results` base classes, `Units`,
the KF reader) are modelled from the specification and marked as such
in their doc comments.
-/

attribute [local semireducible] Rat.mul Rat.add Rat.sub Rat.inv Rat.ofScientific

mutual

/-- A Python value as it occurs in a PLAMS settings tree: a string, an
integer, a boolean, a list of values, or a nested `Settings` tree. -/
inductive SVal where
  | vStr (s : String)
  | vInt (n : Int)
  | vBool (b : Bool)
  | vList (xs : SVals)
  | vTree (t : STree)

/-- A list of settings values (spine of a Python list). -/
inductive SVals where
  | nil
  | cons (v : SVal) (vs : SVals)

/-- An ordered settings tree: a sequence of key/value entries, in
insertion order, as iterated by Python's `Settings`. -/
inductive STree where
  | nil
  | cons (key : String) (val : SVal) (rest : STree)

end

/-- First value stored under `key`, as Python's `value[el]` lookup on a
duplicate-free `Settings` mapping. -/
def STree.lookup : STree → String → Option SVal
  | .nil, _ => none
  | .cons k v r, key => if k == key then some v else r.lookup key

/-- The entries of a settings tree as a Lean list. -/
def STree.toList : STree → List (String × SVal)
  | .nil => []
  | .cons k v r => (k, v) :: r.toList

/-- Python's `str.upper()` for the ASCII keys used in these input files,
mapping each character to its upper-case form. -/
def pyUpper (s : String) : String :=
  String.mk (s.data.map Char.toUpper)

/-- Does `pat` occur as a contiguous run at some position of `s`?
(Helper for `strContains`, recursing over the character list.) -/
def containsAux (pat : List Char) : List Char → Bool
  | [] => pat.isEmpty
  | c :: cs => pat.isPrefixOf (c :: cs) || containsAux pat cs

/-- Python's `pat in s` substring test. -/
def strContains (s pat : String) : Bool :=
  containsAux pat.data s.data

/-- Python's `str()` on the scalar values that reach a format slot in the
serializers: strings verbatim, integers in decimal, `True`/`False` for
booleans.  The `str()` form of a Python list or of a `Settings` object is
defined in the external core container classes and is not exercised by
any claim; those two cases are modelled as the empty string. -/
def pyStr : SVal → String
  | .vStr s => s
  | .vInt n => toString n
  | .vBool true => "True"
  | .vBool false => "False"
  | .vList _ => ""
  | .vTree _ => ""

/-- Python's `n * ' '`: a run of `n` spaces. -/
def spaces (n : Nat) : String :=
  String.mk (List.replicate n ' ')

namespace Cp2kJob

/-- The reserved keywords of `Cp2kJob.get_input` (`cp2k.py` line 17). -/
def _reserved_keywords : List String := ["KIND", "AT_SET", "AT_INCLUDE", "AT_IF"]

/-- The `"AT_SET" in key` branch of `parse` (`cp2k.py` lines 36-38):
`@SET var val` from the first entry.  Python raises `IndexError` on an
empty tree; that case is modelled as the empty string and is not
exercised by any claim. -/
def parseAtSet (t : STree) : String :=
  match t with
  | .nil => ""
  | .cons var val _ => "@SET " ++ var ++ " " ++ pyStr val ++ "\n"

mutual

/-- Translation of `parse(key, value, indent)` from `Cp2kJob.get_input` (`cp2k.py` lines
19-58), translated branch for branch and in the source's order of
checks:

* `Settings` value, key not exactly a reserved keyword: a `&KEY` block;
* `Settings` value, reserved key containing `"KIND"`: one named block per
  child (`parseKind`);
* `Settings` value, reserved key containing `"AT_SET"`: `parseAtSet`;
* `Settings` value, reserved key containing `"AT_IF"`: `parseAtIf`;
* `Settings` value, reserved key matching none of the three substrings
  (exactly the uppercased key `AT_INCLUDE`): nothing is emitted;
* non-`Settings` value: the `@include` line for the key `AT_INCLUDE`
  (checked before the list case, as in the source), list splicing, the
  bare-flag lines for the empty string and `True`, and the default `KEY  value`
  line. -/
def parse (key : String) (value : SVal) (indent : String) : String :=
  let k := pyUpper key
  match value with
  | .vTree t =>
    if !(_reserved_keywords.any (fun r => r == k)) then
      indent ++ "&" ++ k ++ "\n" ++ parseTree t (indent ++ "  ") ++ indent ++ "&END\n"
    else if strContains k "KIND" then
      parseKind k t indent
    else if strContains k "AT_SET" then
      parseAtSet t
    else if strContains k "AT_IF" then
      parseAtIf t indent
    else ""
  | .vList xs =>
    if k == "AT_INCLUDE" then "@include " ++ pyStr (.vList xs) ++ "\n"
    else parseVals k xs indent
  | .vStr s =>
    if k == "AT_INCLUDE" then "@include " ++ s ++ "\n"
    else if s == "" then indent ++ k ++ "\n"
    else indent ++ k ++ "  " ++ s ++ "\n"
  | .vBool b =>
    if k == "AT_INCLUDE" then "@include " ++ pyStr (.vBool b) ++ "\n"
    else if b then indent ++ k ++ "\n"
    else indent ++ k ++ "  " ++ pyStr (.vBool b) ++ "\n"
  | .vInt n =>
    if k == "AT_INCLUDE" then "@include " ++ pyStr (.vInt n) ++ "\n"
    else indent ++ k ++ "  " ++ pyStr (.vInt n) ++ "\n"

/-- The `for el in value: ret += parse(el, value[el], indent + two spaces)`
loops of `Cp2kJob.get_input`. -/
def parseTree (t : STree) (indent : String) : String :=
  match t with
  | .nil => ""
  | .cons key v rest => parse key v indent ++ parseTree rest indent

/-- The `"KIND" in key` loop of `parse` (`cp2k.py` lines 29-34): one
`&<KEY>  <NAME>` ... `&END` block per child, with the child's entries
serialized at increased indent.  Python iterates and indexes each child
as a `Settings`; a non-`Settings` child raises a `TypeError` there and is
modelled as a block with no inner lines (not exercised by any claim). -/
def parseKind (k : String) (t : STree) (indent : String) : String :=
  match t with
  | .nil => ""
  | .cons el (.vTree sub) rest =>
    indent ++ "&" ++ k ++ "  " ++ pyUpper el ++ "\n" ++ parseTree sub (indent ++ "  ")
      ++ indent ++ "&END\n" ++ parseKind k rest indent
  | .cons el _ rest =>
    indent ++ "&" ++ k ++ "  " ++ pyUpper el ++ "\n"
      ++ indent ++ "&END\n" ++ parseKind k rest indent

/-- The `"AT_IF" in key` branch of `parse` (`cp2k.py` lines 40-45):
`@IF pred` around the serialized branch.  Python raises on an empty tree
or a non-`Settings` branch; those cases are modelled as an empty
conditional body and are not exercised by any claim. -/
def parseAtIf (t : STree) (indent : String) : String :=
  match t with
  | .nil => ""
  | .cons pred (.vTree branch) _ =>
    indent ++ "@IF " ++ pred ++ "\n" ++ parseTree branch (indent ++ "  ")
      ++ indent ++ "@ENDIF\n"
  | .cons pred _ _ =>
    indent ++ "@IF " ++ pred ++ "\n" ++ indent ++ "@ENDIF\n"

/-- The `isinstance(value, list)` branch of `parse` (`cp2k.py` lines
50-52): the key/value line once per list element. -/
def parseVals (k : String) (xs : SVals) (indent : String) : String :=
  match xs with
  | .nil => ""
  | .cons v vs => parse k v indent ++ parseVals k vs indent

end

/-- The top level of `Cp2kJob.get_input` (`cp2k.py` lines 60-64): each
root item serialized with empty indent then a blank-line separator. -/
def get_input (input : STree) : String :=
  match input with
  | .nil => ""
  | .cons k v rest => parse k v "" ++ "\n" ++ get_input rest

end Cp2kJob

namespace ORCAJob

/-- Translation of `get_end(s)` from `ORCAJob.get_input` (`orca.py` lines 81-85): a
`Settings` value containing the sentinel key `_end` is rendered as its
`_end` value followed by `" end"`; any other value passes through (and is
rendered by the caller's format slot, modelled by `pyStr`). -/
def get_end (s : SVal) : String :=
  match s with
  | .vTree t =>
    match t.lookup "_end" with
    | some v => pyStr v ++ " end"
    | none => pyStr (.vTree t)
  | v => pyStr v

/-- The loop body of `pretty_print_inner` (`orca.py` lines 87-95),
with `first` tracking Python's `i == 0` test: the first sub-item is
separated from the block name by a single space, later sub-items are
placed at the alignment indent. -/
def ppInnerGo (t : STree) (indent : String) (first : Bool) : String :=
  match t with
  | .nil => ""
  | .cons key v rest =>
    (if first then " " else indent) ++ key ++ " " ++ get_end v ++ "\n"
      ++ ppInnerGo rest indent false

/-- Translation of `pretty_print_inner(s, indent)` from `ORCAJob.get_input` (`orca.py`
lines 87-95). -/
def pretty_print_inner (t : STree) (indent : String) : String :=
  ppInnerGo t indent true

/-- The `isinstance(s, list)` branch of `pretty_print_orca` (`orca.py`
lines 110-112): each element rendered through a plain format slot and
concatenated with no separator. -/
def ppList (xs : SVals) : String :=
  match xs with
  | .nil => ""
  | .cons v vs => pyStr v ++ ppList vs

mutual

/-- Translation of `pretty_print_orca(s, indent)` from `ORCAJob.get_input` (`orca.py`
lines 97-115): a `Settings` tree is rendered item by item (`ppItems`),
a list element-wise, and any other value through a plain format slot. -/
def pretty_print_orca (s : SVal) (indent : String) : String :=
  match s with
  | .vTree t => ppItems t indent
  | .vList xs => ppList xs
  | v => pyStr v

/-- The `for k, v in s.items()` loop of `pretty_print_orca` (`orca.py`
lines 100-109): the key `main` becomes the `! ...` simple-input line; any
other key becomes a `%`-block whose body is `pretty_print_inner` when the
value is a `Settings` tree and a recursive rendering otherwise, closed by
`end` at the alignment indent `(len(k) + 2) * ' '`. -/
def ppItems (t : STree) (indent : String) : String :=
  match t with
  | .nil => ""
  | .cons k (.vTree vt) rest =>
    (if k == "main" then "! " ++ pretty_print_orca (.vTree vt) indent ++ "\n\n"
     else
       "%" ++ k ++ pretty_print_inner vt (spaces (k.length + 2))
         ++ spaces (k.length + 2) ++ "end\n\n")
      ++ ppItems rest indent
  | .cons k v rest =>
    (if k == "main" then "! " ++ pretty_print_orca v indent ++ "\n\n"
     else
       "%" ++ k ++ pretty_print_orca v ""
         ++ spaces (k.length + 2) ++ "end\n\n")
      ++ ppItems rest indent

end

/-- The molecule properties read by `ORCAJob.print_molecule`: the optional
`charge` and `multiplicity` entries of the molecule's property bag. -/
structure MolProperties where
  charge : Option SVal
  multiplicity : Option SVal

/-- A molecule as `ORCAJob.print_molecule` consumes it.  Atom coordinate
lines are produced by the external `Atom.str` (floating-point formatting
outside this repository), so each atom is modelled by its already
rendered line. -/
structure Molecule where
  atoms : List String
  properties : MolProperties

/-- Python's `isinstance(x, int)` for the property values: true for an
integer and also for a boolean (`bool` is a subclass of `int`). -/
def isInstInt : SVal → Bool
  | .vInt _ => true
  | .vBool _ => true
  | _ => false

/-- Translation of `ORCAJob.print_molecule` (`orca.py` lines 122-139): without a molecule
(falsy `self.molecule`) the empty string; otherwise the header
`* xyz <charge> <multiplicity>`, the atom lines joined with newlines, and
a closing `*`.  Charge falls back to `0` and multiplicity to `1` when the
property is absent or not an `int`. -/
def print_molecule (mol : Option Molecule) : String :=
  match mol with
  | none => ""
  | some m =>
    let charge : SVal :=
      match m.properties.charge with
      | some v => if isInstInt v then v else .vInt 0
      | none => .vInt 0
    let multi : SVal :=
      match m.properties.multiplicity with
      | some v => if isInstInt v then v else .vInt 1
      | none => .vInt 1
    let xyz := String.intercalate "\n" m.atoms
    "* xyz " ++ pyStr charge ++ " " ++ pyStr multi ++ "\n" ++ xyz ++ "\n*\n\n"

/-- Translation of `ORCAJob.get_input` (`orca.py` lines 117-120): serialized settings
followed by the printed molecule. -/
def get_input (input : SVal) (mol : Option Molecule) : String :=
  pretty_print_orca input "" ++ print_molecule mol

end ORCAJob

namespace Units

/-- Modelled from the spec: `tools/units.py` is not among the sources.
The spec fixes only that stored values are converted "from atomic units
to requested unit" by a units-conversion utility (source name
`Units.conversion_ratio`); the factor between a unit and itself is 1, and
no claim exercises a non-identity pair, so every other pair is also
modelled with factor 1. -/
def conversion_factor (fr target : String) : ℚ :=
  if fr == target then 1 else 1

/-- Modelled from the spec: `Units.convert(value, inputUnit, outputUnit)`
rescales a value by the conversion factor between the two units. -/
def convert (x : ℚ) (fr target : String) : ℚ :=
  x * conversion_factor fr target

end Units

/-- All-decimal-digits string value (helper for `pyFloat?`): `none` when
empty or containing a non-digit. -/
def digitsVal (cs : List Char) : Option Nat :=
  if cs.isEmpty then none
  else cs.foldl
    (fun acc c => acc.bind (fun n => if c.isDigit then some (n * 10 + (c.toNat - 48)) else none))
    (some 0)

/-- Split a character list at the first `'.'` (helper for `pyFloat?`). -/
def splitDot : List Char → List Char × Option (List Char)
  | [] => ([], none)
  | '.' :: rest => ([], some rest)
  | c :: rest =>
    let (i, f) := splitDot rest
    (c :: i, f)

/-- Python's `float(s)` on the plain decimal literals that occur in the
parsed output logs (optional sign, digits, optional fractional part; at
least one digit), as an exact rational.  Exponent, infinity and
whitespace forms accepted by Python are not exercised by any claim and
parse to `none` here. -/
def pyFloat? (s : String) : Option ℚ :=
  let signed : ℚ × List Char :=
    match s.data with
    | '-' :: rest => (-1, rest)
    | '+' :: rest => (1, rest)
    | cs => (1, cs)
  match splitDot signed.2 with
  | (i, none) => (digitsVal i).map (fun n => signed.1 * n)
  | (i, some f) =>
    if i.isEmpty && f.isEmpty then none
    else
      (if i.isEmpty then some 0 else digitsVal i).bind fun ip =>
        (if f.isEmpty then some 0 else digitsVal f).map fun fp =>
          signed.1 * ((ip : ℚ) + (fp : ℚ) / (10 : ℚ) ^ f.length)

/-- Python's `str.split()` with no argument (helper recursion): split on
runs of whitespace, dropping empty pieces; `acc` holds the reversed
characters of the token being read. -/
def pySplitGo (acc : List Char) : List Char → List String
  | [] => if acc.isEmpty then [] else [String.mk acc.reverse]
  | c :: cs =>
    if c.isWhitespace then
      (if acc.isEmpty then [] else [String.mk acc.reverse]) ++ pySplitGo [] cs
    else
      pySplitGo (c :: acc) cs

/-- Python's `str.split()` with no argument. -/
def pySplit (s : String) : List String :=
  pySplitGo [] s.data

namespace ORCAResults

/-- Modelled from the spec: `Results.grep_output(pattern)` lives in the
external `core/results.py`.  Per the spec the output log is "scanned via
pattern search" and `get_energy` then takes "the 5th whitespace-separated
token of the grep result", so the grep result is modelled as the matching
lines of the log joined back into text. -/
def grep_output (log : List String) (pattern : String) : String :=
  String.intercalate "\n" (log.filter (fun l => strContains l pattern))

/-- Modelled from the spec: `grep_output` with `options='-A n'`, "a
trailing-line window": the first matching line together with the `n`
lines that follow it. -/
def grep_outputA (log : List String) (pattern : String) (after : Nat) : String :=
  match log.findIdx? (fun l => strContains l pattern) with
  | none => ""
  | some i => String.intercalate "\n" ((log.drop i).take (after + 1))

/-- Translation of `ORCAResults.get_energy(unit)` (`orca.py` lines 19-23): grep the
output for `FINAL SINGLE POINT ENERGY`, take the 5th whitespace-separated
token as the energy in atomic units, convert to `unit`.  A missing token
or an unparsable number raises in Python (`IndexError`/`ValueError`) and
is `none` here. -/
def get_energy (log : List String) (unit : String) : Option ℚ :=
  let string := grep_output log "FINAL SINGLE POINT ENERGY"
  match (pySplit string)[4]? with
  | some tok => (pyFloat? tok).map (fun e => Units.convert e "au" unit)
  | none => none

/-- The source of `get_frequencies` calls `string.spltlines()`
(`orca.py` line 29); Python's `str` has no method of that name, so the
call raises `AttributeError` on every input.  The missing method is
modelled as the failure it raises. -/
def spltlines (_s : String) : Option (List String) := none

/-- Translation of `ORCAResults.get_frequencies(unit)` (`orca.py` lines 25-31): grep for
`VIBRATIONAL FREQUENCIES` with a `-A 2 + 3*len(atoms)` window, drop the
first three lines, parse the 2nd token of each remaining line, convert
from cm^-1.  The pipeline is translated as written; it never gets past
the misspelled `spltlines` call. -/
def get_frequencies (log : List String) (natoms : Nat) (unit : String) : Option (List ℚ) :=
  let after := 2 + 3 * natoms
  let string := grep_outputA log "VIBRATIONAL FREQUENCIES" after
  match spltlines string with
  | none => none
  | some ls =>
    let freq_list := ls.drop 3
    (freq_list.mapM (fun freq => ((pySplit freq)[1]?).bind pyFloat?)).map
      (fun freqs => freqs.map (fun q => q * Units.conversion_factor "cm^-1" unit))

end ORCAResults

namespace ADFResults

/-- A value stored in the KF result file: a single number or a numeric
array (the two shapes the claims exercise). -/
inductive KFVal where
  | num (q : ℚ)
  | arr (xs : List ℚ)
deriving DecidableEq

/-- Modelled from the spec: the ADF binary result store is "a
section/variable key-value interface", here an association list from
(section, variable) to stored value with distinct keys, as in a KF
file. -/
abbrev KF := List ((String × String) × KFVal)

/-- Modelled from the spec: `readkf(section, variable)` reads one
variable of one section of the KF store. -/
def readkf (kf : KF) (sec v : String) : Option KFVal :=
  (kf.find? (fun e => e.1.1 == sec && e.1.2 == v)).map (fun e => e.2)

/-- Modelled from the spec: `SCMResults._get_single_value(section,
variable, unit)` lives in the external `scmjob.py`; per the spec the
named accessors "read and convert" one stored value from atomic units to
the requested unit. -/
def get_single_value (kf : KF) (sec v unit : String) : Option ℚ :=
  match readkf kf sec v with
  | some (.num q) => some (Units.convert q "au" unit)
  | _ => none

/-- Translation of `ADFResults.get_energy(unit)` (`adf.py` lines 55-59): the
`Energy/Bond Energy` entry converted to `unit`. -/
def get_energy (kf : KF) (unit : String) : Option ℚ :=
  get_single_value kf "Energy" "Bond Energy" unit

/-- Translation of `ADFResults.get_energy_decomposition(unit)` (`adf.py` lines 82-93):
the four converted components keyed `Electrostatic`, `Kinetic`,
`Coulomb` (from `Elstat Interaction`) and `XC`, in insertion order.
Python raises if a component is missing; that is `none` here. -/
def get_energy_decomposition (kf : KF) (unit : String) : Option (List (String × ℚ)) :=
  match get_single_value kf "Energy" "Electrostatic Energy" unit,
        get_single_value kf "Energy" "Kinetic Energy" unit,
        get_single_value kf "Energy" "Elstat Interaction" unit,
        get_single_value kf "Energy" "XC Energy" unit with
  | some e, some k, some c, some x =>
    some [("Electrostatic", e), ("Kinetic", k), ("Coulomb", c), ("XC", x)]
  | _, _, _, _ => none

/-- Translation of `ADFResults.get_properties()` (`adf.py` lines 22-30): every
(variable, value) pair of the `Properties` section. -/
def get_properties (kf : KF) : List (String × KFVal) :=
  kf.filterMap (fun e => if e.1.1 == "Properties" then some (e.1.2, e.2) else none)

/-- The distinct failure raised by the results accessors
(`core.errors.ResultsError`). -/
inductive ADFError where
  | resultsError (msg : String)
deriving DecidableEq

/-- Modelled from the spec: the external `Units.convert` applied to a
stored KF value rescales a number, or an array element-wise. -/
def convertVal : KFVal → String → String → KFVal
  | .num q, fr, target => .num (Units.convert q fr target)
  | .arr xs, fr, target => .arr (xs.map (fun q => Units.convert q fr target))

/-- Translation of `ADFResults.get_dipole_vector(unit)` (`adf.py` lines 62-69): the
converted `Dipole` entry of the `Properties` section when present,
otherwise the `ResultsError` naming the section and the KF file path
(`self._kfpath()`, passed in as `kfpath`). -/
def get_dipole_vector (kf : KF) (kfpath : String) (unit : String) : Except ADFError KFVal :=
  match (get_properties kf).lookup "Dipole" with
  | some v => .ok (convertVal v "au" unit)
  | none => .error (.resultsError ("'Dipole' not present in 'Properties' section of " ++ kfpath))

/-- A Python exception as distinguished by the `except` clauses of
`recreate_settings`: `subprocess.CalledProcessError` versus anything
else. -/
inductive PyExc where
  | calledProcessError
  | otherExc (msg : String)
deriving DecidableEq

/-- Translation of `ADFResults.recreate_settings` (`adf.py` lines 138-167), the
try/except ladder around the external input-grammar reader
`scm.input_parser.input_to_settings` and legacy converter
`scm.input_parser.convert_legacy_input`; both externals are passed in as
functions returning their result or the exception they raise.

Translated branch for branch from the source:

* first call succeeds: a result built from the parsed tree (the
  post-processing — removing the `atoms` block, `soft_update` with
  `config.job` — happens in external container code and is not modelled;
  the result is represented by the parsed tree itself);
* first call raises `CalledProcessError`: the text is converted — a
  converter failure is outside the inner `try` and propagates — and
  re-parsed, any second parse failure being logged and yielding `None`;
* first call raises anything else: logged, `None`;
* the extraction of the stored input text upstream of the `try` (the
  160-character record unwrapping) is not modelled: the stored text is
  the `user_input` argument, and `kfpresent` is the `self._kfpresent()`
  test, `False` yielding `None` before any parsing. -/
def recreate_settings (kfpresent : Bool)
    (input_to_settings : String → Except PyExc STree)
    (convert_legacy_input : String → Except PyExc String)
    (user_input : String) : Except PyExc (Option STree) :=
  if kfpresent then
    match input_to_settings user_input with
    | .ok inp => .ok (some inp)
    | .error .calledProcessError =>
      match convert_legacy_input user_input with
      | .error e => .error e
      | .ok new_input =>
        match input_to_settings new_input with
        | .ok inp => .ok (some inp)
        | .error _ => .ok none
    | .error _ => .ok none
  else .ok none

end ADFResults

/-! ### Specification-side renderings and fixtures

The `spec...` definitions below follow the wording of the specification
(not the source); the claim theorems compare them with the translated
source functions.  The remaining definitions are concrete test doubles
used by witnesses and counterexamples. -/

/-- A settings tree all of whose children are themselves subtrees, as in
the claim about named kind blocks. -/
def treeOfChildren : List (String × STree) → STree
  | [] => .nil
  | (n, t) :: rest => .cons n (.vTree t) (treeOfChildren rest)

/-- Spec wording for the kind branch: for each child `(name, subtree)`,
a line `&<KEY>  <NAME>` (name uppercased), the recursively serialized
subtree at increased indent, then `&END` — one block per child. -/
def specKindBlocks (key indent : String) : List (String × STree) → String
  | [] => ""
  | c :: rest =>
    indent ++ "&" ++ key ++ "  " ++ pyUpper c.1 ++ "\n"
      ++ Cp2kJob.parseTree c.2 (indent ++ "  ") ++ indent ++ "&END\n"
      ++ specKindBlocks key indent rest

/-- Tail lines of a block body in the spec wording: each later sub-item
at the alignment indent (helper for `specInnerLines`). -/
def specTailLines (indent : String) : List (String × SVal) → String
  | [] => ""
  | it :: rest => indent ++ it.1 ++ " " ++ ORCAJob.get_end it.2 ++ "\n" ++ specTailLines indent rest

/-- Spec wording for the body of an ORCA `%`-block: sub-items one per
line, the first separated by a single space (it sits on the line of
`%<keyname>`, whose width is the alignment indent), later ones at the
alignment indent, each value passed through the `_end`-aware
unwrapper. -/
def specInnerLines (indent : String) : List (String × SVal) → String
  | [] => ""
  | item :: rest =>
    " " ++ item.1 ++ " " ++ ORCAJob.get_end item.2 ++ "\n" ++ specTailLines indent rest

/-- Spec wording for the printed charge: the molecule's `charge` property
when present and an integer (Python counts a boolean as an integer),
otherwise `0`. -/
def specCharge : Option SVal → SVal
  | some v => if ORCAJob.isInstInt v then v else .vInt 0
  | none => .vInt 0

/-- Spec wording for the printed multiplicity: the `multiplicity`
property when present and an integer, otherwise `1`. -/
def specMulti : Option SVal → SVal
  | some v => if ORCAJob.isInstInt v then v else .vInt 1
  | none => .vInt 1

/-- Test double: an input-grammar reader that always raises
`CalledProcessError`. -/
def parseCPE : String → Except ADFResults.PyExc STree :=
  fun _ => .error .calledProcessError

/-- Test double: a legacy converter that itself raises. -/
def legacyFail : String → Except ADFResults.PyExc String :=
  fun _ => .error (.otherExc "legacy conversion failed")

/-- Test double: an input-grammar reader that parses only the converted
text `"converted"` and raises a non-`CalledProcessError` failure on
anything else. -/
def parseOnlyConverted : String → Except ADFResults.PyExc STree :=
  fun s => if s == "converted" then .ok STree.nil else .error (.otherExc "parse error")

/-- Test double: a legacy converter that succeeds, returning
`"converted"`. -/
def legacyOk : String → Except ADFResults.PyExc String :=
  fun _ => .ok "converted"

/-! ### Claim theorems -/

/-- The kind branch on a tree of subtree children renders the per-child
blocks of the spec wording (helper for the amended claim C1). -/
theorem parseKind_treeOfChildren (children : List (String × STree)) (indent : String) :
    Cp2kJob.parseKind "KIND" (treeOfChildren children) indent
      = specKindBlocks "KIND" indent children := by
  induction children with
  | nil => rfl
  | cons c rest ih =>
    simp only [treeOfChildren, Cp2kJob.parseKind, specKindBlocks, ih]

/-- C1 (amended): a pair whose key uppercases to exactly `KIND` and whose
value is a settings tree of named subtrees serializes to one named kind
block per child: `&KIND  <NAME>`, the recursively serialized subtree at
increased indent, then `&END`. -/
theorem cp2k_kind_named_blocks (key indent : String) (children : List (String × STree))
    (h : pyUpper key = "KIND") :
    Cp2kJob.parse key (.vTree (treeOfChildren children)) indent
      = specKindBlocks "KIND" indent children := by
  simp only [Cp2kJob.parse, h]
  rw [if_neg (by decide), if_pos (by decide)]
  exact parseKind_treeOfChildren children indent

/-- Witness for C1 at a concrete input. -/
theorem cp2k_kind_named_blocks_witness :
    pyUpper "Kind" = "KIND"
    ∧ Cp2kJob.parse "Kind" (.vTree (treeOfChildren [("na", .cons "q" (.vInt 1) .nil)])) ""
        = specKindBlocks "KIND" "" [("na", .cons "q" (.vInt 1) .nil)] :=
  ⟨by decide, cp2k_kind_named_blocks "Kind" "" [("na", .cons "q" (.vInt 1) .nil)] (by decide)⟩

/-- Counterexample to C1 as stated: the key `KINDS` contains the
substring `KIND` but is not a reserved keyword, so its subtree is
serialized as an ordinary `&KINDS` block, not as named kind blocks. -/
theorem cp2k_kind_substring_refuted :
    strContains (pyUpper "kinds") "KIND" = true
    ∧ Cp2kJob.parse "kinds" (.vTree (.cons "na" (.vTree (.cons "q" (.vInt 1) .nil)) .nil)) ""
        ≠ specKindBlocks (pyUpper "kinds") "" [("na", .cons "q" (.vInt 1) .nil)] := by
  exact ⟨by decide, by decide⟩

/-- C4 (amended): a leaf pair whose value is boolean `True` or the empty
string, and whose key does not uppercase to the reserved keyword
`AT_INCLUDE`, emits the bare uppercased keyword with no trailing
value. -/
theorem cp2k_flag_line (key : String) (v : SVal) (indent : String)
    (hk : pyUpper key ≠ "AT_INCLUDE")
    (hv : v = SVal.vStr "" ∨ v = SVal.vBool true) :
    Cp2kJob.parse key v indent = indent ++ pyUpper key ++ "\n" := by
  rcases hv with rfl | rfl
  · simp only [Cp2kJob.parse]
    rw [if_neg (by simpa using hk), if_pos (by decide)]
  · simp only [Cp2kJob.parse]
    rw [if_neg (by simpa using hk), if_pos trivial]

/-- Witness for C4 at a concrete input. -/
theorem cp2k_flag_line_witness :
    pyUpper "dft" ≠ "AT_INCLUDE"
    ∧ Cp2kJob.parse "dft" (SVal.vBool true) "" = "" ++ pyUpper "dft" ++ "\n" :=
  ⟨by decide, cp2k_flag_line "dft" (SVal.vBool true) "" (by decide) (Or.inr rfl)⟩

/-- Counterexample to C4 as stated: the leaf pair `(AT_INCLUDE, True)`
emits `@include True`, not the bare uppercased keyword. -/
theorem cp2k_flag_at_include_refuted :
    Cp2kJob.parse "at_include" (SVal.vBool true) "" = "@include True\n"
    ∧ Cp2kJob.parse "at_include" (SVal.vBool true) "" ≠ "" ++ pyUpper "at_include" ++ "\n" := by
  exact ⟨by decide, by decide⟩

/-- C10: a pair whose key uppercases to exactly `AT_INCLUDE` but whose
value is a settings tree matches neither the reserved-keyword branches
(no `KIND`, `AT_SET` or `AT_IF` substring) nor the non-tree branches, so
the serializer returns the empty string and the subtree is dropped. -/
theorem cp2k_at_include_subtree_dropped (key : String) (t : STree) (indent : String)
    (h : pyUpper key = "AT_INCLUDE") :
    Cp2kJob.parse key (.vTree t) indent = "" := by
  simp only [Cp2kJob.parse, h]
  rw [if_neg (by decide), if_neg (by decide), if_neg (by decide), if_neg (by decide)]

/-- Witness for C10 at a concrete input. -/
theorem cp2k_at_include_subtree_dropped_witness :
    pyUpper "at_include" = "AT_INCLUDE"
    ∧ Cp2kJob.parse "at_include" (.vTree (.cons "x" (.vInt 1) .nil)) "" = "" :=
  ⟨by decide, cp2k_at_include_subtree_dropped "at_include" (.cons "x" (.vInt 1) .nil) "" (by decide)⟩

/-- Later sub-items are rendered at the alignment indent (helper for
C3). -/
theorem ppInnerGo_tail : ∀ (t : STree) (ind : String),
    ORCAJob.ppInnerGo t ind false = specTailLines ind t.toList
  | .nil, _ => rfl
  | .cons k v r, ind => by
    have ih := ppInnerGo_tail r ind
    simp [ORCAJob.ppInnerGo, STree.toList, specTailLines, ih]

/-- The inner block printer renders the spec wording of the block body
(helper for C3). -/
theorem pretty_print_inner_spec (t : STree) (ind : String) :
    ORCAJob.pretty_print_inner t ind = specInnerLines ind t.toList := by
  cases t with
  | nil => rfl
  | cons k v r =>
    simp [ORCAJob.pretty_print_inner, ORCAJob.ppInnerGo, STree.toList, specInnerLines,
      ppInnerGo_tail]

/-- C3: a top-level non-`main` key with a settings-tree value becomes a
`%`-block whose sub-items are printed one per line at alignment indent
`len(keyname) + 2` (the first on the `%<keyname>` line itself), closed by
`end` at that indent; and a sub-item value that is a settings tree
containing the sentinel `_end` renders as the `_end` value followed by
`" end"`. -/
theorem orca_block_rendering (k : String) (vt rest : STree) (indent : String)
    (hk : k ≠ "main") :
    ORCAJob.pretty_print_orca (.vTree (.cons k (.vTree vt) rest)) indent
      = "%" ++ k ++ specInnerLines (spaces (k.length + 2)) vt.toList
          ++ spaces (k.length + 2) ++ "end\n\n"
          ++ ORCAJob.pretty_print_orca (.vTree rest) indent
    ∧ ∀ (t : STree) (v : SVal), t.lookup "_end" = some v →
        ORCAJob.get_end (.vTree t) = pyStr v ++ " end" := by
  constructor
  · simp only [ORCAJob.pretty_print_orca, ORCAJob.ppItems]
    rw [if_neg (by simpa using hk), pretty_print_inner_spec]
  · intro t v hv
    simp [ORCAJob.get_end, hv]

/-- Witness for C3 at a concrete input. -/
theorem orca_block_rendering_witness :
    ("method" : String) ≠ "main"
    ∧ ORCAJob.pretty_print_orca
          (.vTree (.cons "method" (.vTree (.cons "SpecialGridAtoms" (.vInt 26) .nil)) .nil)) ""
        = "%" ++ "method"
            ++ specInnerLines (spaces ("method".length + 2))
                (STree.cons "SpecialGridAtoms" (.vInt 26) .nil).toList
            ++ spaces ("method".length + 2) ++ "end\n\n"
            ++ ORCAJob.pretty_print_orca (.vTree .nil) "" :=
  ⟨by decide,
   (orca_block_rendering "method" (.cons "SpecialGridAtoms" (.vInt 26) .nil) .nil "" (by decide)).1⟩

/-- C5: the molecule printer emits the header
`* xyz <charge> <multiplicity>` with the charge taken from the `charge`
property when present and an integer, else `0`, and the multiplicity from
the `multiplicity` property when present and an integer, else `1`; with
neither property the header is `* xyz 0 1`. -/
theorem orca_print_molecule_header (m : ORCAJob.Molecule) :
    ORCAJob.print_molecule (some m)
      = "* xyz " ++ pyStr (specCharge m.properties.charge) ++ " "
          ++ pyStr (specMulti m.properties.multiplicity) ++ "\n"
          ++ String.intercalate "\n" m.atoms ++ "\n*\n\n"
    ∧ (m.properties.charge = none → m.properties.multiplicity = none →
        ORCAJob.print_molecule (some m)
          = "* xyz 0 1\n" ++ String.intercalate "\n" m.atoms ++ "\n*\n\n") := by
  constructor
  · cases hc : m.properties.charge <;> cases hm : m.properties.multiplicity <;>
      simp only [ORCAJob.print_molecule, specCharge, specMulti, hc, hm]
  · intro h1 h2
    simp only [ORCAJob.print_molecule, h1, h2]
    rfl

/-- Witness for C5 at a concrete two-atom molecule with no properties. -/
theorem orca_print_molecule_header_witness :
    ORCAJob.print_molecule (some ⟨["C      0.00000", "H      1.08900"], ⟨none, none⟩⟩)
      = "* xyz 0 1\n" ++ String.intercalate "\n" ["C      0.00000", "H      1.08900"] ++ "\n*\n\n" :=
  (orca_print_molecule_header ⟨["C      0.00000", "H      1.08900"], ⟨none, none⟩⟩).2 rfl rfl

/-- C6: whenever the grep result for `FINAL SINGLE POINT ENERGY` has a
5th whitespace-separated token that parses as a number, `get_energy`
returns that number converted from atomic units to the requested
unit. -/
theorem orca_energy_from_grep (log : List String) (unit tok : String) (e : ℚ)
    (h1 : (pySplit (ORCAResults.grep_output log "FINAL SINGLE POINT ENERGY"))[4]? = some tok)
    (h2 : pyFloat? tok = some e) :
    ORCAResults.get_energy log unit = some (Units.convert e "au" unit) := by
  simp only [ORCAResults.get_energy, h1, h2, Option.map_some']

/-- Witness for C6 on the spec's concrete log line, at unit `au`. -/
theorem orca_energy_from_grep_witness :
    (pySplit (ORCAResults.grep_output ["Scf done", "FINAL SINGLE POINT ENERGY   -40.123456"]
        "FINAL SINGLE POINT ENERGY"))[4]? = some "-40.123456"
    ∧ pyFloat? "-40.123456" = some (-(40123456 / 1000000 : ℚ))
    ∧ Units.convert (-(40123456 / 1000000 : ℚ)) "au" "au" = -(40123456 / 1000000 : ℚ)
    ∧ ORCAResults.get_energy ["Scf done", "FINAL SINGLE POINT ENERGY   -40.123456"] "au"
        = some (Units.convert (-(40123456 / 1000000 : ℚ)) "au" "au") :=
  ⟨by decide, by decide, by decide,
   orca_energy_from_grep ["Scf done", "FINAL SINGLE POINT ENERGY   -40.123456"] "au"
     "-40.123456" (-(40123456 / 1000000 : ℚ)) (by decide) (by decide)⟩

/-- C2 (code bug): `get_frequencies` never returns a frequency array —
the `spltlines` call raises `AttributeError` on every input, so the
parsing and conversion described by the claim are unreachable. -/
theorem orca_frequencies_always_fail (log : List String) (natoms : Nat) (unit : String) :
    ORCAResults.get_frequencies log natoms unit = none := by
  simp [ORCAResults.get_frequencies, ORCAResults.spltlines]

/-- C7: with all four energy components and the bond energy stored, and
the components summing to the bond energy, the decomposition at unit `au`
holds exactly the keys `Electrostatic`, `Kinetic`, `Coulomb` (the
converted `Elstat Interaction` value) and `XC`, and the sum of the
returned values is the value returned by `get_energy`. -/
theorem adf_energy_decomposition_consistent (kf : ADFResults.KF) (es ki el xc be : ℚ)
    (h1 : ADFResults.readkf kf "Energy" "Electrostatic Energy" = some (.num es))
    (h2 : ADFResults.readkf kf "Energy" "Kinetic Energy" = some (.num ki))
    (h3 : ADFResults.readkf kf "Energy" "Elstat Interaction" = some (.num el))
    (h4 : ADFResults.readkf kf "Energy" "XC Energy" = some (.num xc))
    (h5 : ADFResults.readkf kf "Energy" "Bond Energy" = some (.num be))
    (hsum : es + ki + el + xc = be) :
    ADFResults.get_energy_decomposition kf "au"
        = some [("Electrostatic", es), ("Kinetic", ki), ("Coulomb", el), ("XC", xc)]
      ∧ ADFResults.get_energy kf "au" = some be
      ∧ ([("Electrostatic", es), ("Kinetic", ki), ("Coulomb", el), ("XC", xc)].map
          Prod.snd).sum = be := by
  have hc : ∀ q : ℚ, Units.convert q "au" "au" = q := by
    intro q
    simp [Units.convert, Units.conversion_factor]
  refine ⟨?_, ?_, ?_⟩
  · simp only [ADFResults.get_energy_decomposition, ADFResults.get_single_value,
      h1, h2, h3, h4, hc]
  · simp only [ADFResults.get_energy, ADFResults.get_single_value, h5, hc]
  · simp only [List.map_cons, List.map_nil, List.sum_cons, List.sum_nil]
    rw [← hsum]
    ring

/-- Witness for C7 on a concrete consistent KF store. -/
theorem adf_energy_decomposition_consistent_witness :
    ADFResults.readkf [(("Energy", "Electrostatic Energy"), .num 1),
        (("Energy", "Kinetic Energy"), .num 2), (("Energy", "Elstat Interaction"), .num 3),
        (("Energy", "XC Energy"), .num 4), (("Energy", "Bond Energy"), .num 10)]
        "Energy" "Bond Energy" = some (.num 10)
    ∧ (1 : ℚ) + 2 + 3 + 4 = 10
    ∧ ADFResults.get_energy_decomposition [(("Energy", "Electrostatic Energy"), .num 1),
        (("Energy", "Kinetic Energy"), .num 2), (("Energy", "Elstat Interaction"), .num 3),
        (("Energy", "XC Energy"), .num 4), (("Energy", "Bond Energy"), .num 10)] "au"
        = some [("Electrostatic", 1), ("Kinetic", 2), ("Coulomb", 3), ("XC", 4)] :=
  ⟨by decide, by decide,
   (adf_energy_decomposition_consistent _ 1 2 3 4 10 (by decide) (by decide) (by decide)
     (by decide) (by decide) (by decide)).1⟩

/-- C8: `get_dipole_vector` yields the `ResultsError` naming the
`Properties` section and the KF file exactly when `Dipole` is absent from
the `Properties` section, and the converted stored value when it is
present. -/
theorem adf_dipole_error_iff (kf : ADFResults.KF) (kfpath unit : String) :
    ((ADFResults.get_properties kf).lookup "Dipole" = none →
      ADFResults.get_dipole_vector kf kfpath unit
        = .error (.resultsError ("'Dipole' not present in 'Properties' section of " ++ kfpath)))
    ∧ (∀ v, (ADFResults.get_properties kf).lookup "Dipole" = some v →
      ADFResults.get_dipole_vector kf kfpath unit = .ok (ADFResults.convertVal v "au" unit))
    ∧ (∀ msg, ADFResults.get_dipole_vector kf kfpath unit = .error msg →
      (ADFResults.get_properties kf).lookup "Dipole" = none) := by
  refine ⟨?_, ?_, ?_⟩
  · intro h
    simp [ADFResults.get_dipole_vector, h]
  · intro v h
    simp [ADFResults.get_dipole_vector, h]
  · intro msg h
    cases hl : (ADFResults.get_properties kf).lookup "Dipole" with
    | none => rfl
    | some v => simp [ADFResults.get_dipole_vector, hl] at h

/-- Witness for C8 on a concrete store holding a dipole vector. -/
theorem adf_dipole_error_iff_witness :
    (ADFResults.get_properties [(("Properties", "Dipole"), .arr [0, 0, 1])]).lookup "Dipole"
        = some (.arr [0, 0, 1])
    ∧ ADFResults.get_dipole_vector [(("Properties", "Dipole"), .arr [0, 0, 1])] "plamsjob/ab.t21" "au"
        = .ok (ADFResults.convertVal (.arr [0, 0, 1]) "au" "au") :=
  ⟨rfl, (adf_dipole_error_iff [(("Properties", "Dipole"), .arr [0, 0, 1])] "plamsjob/ab.t21"
    "au").2.1 (.arr [0, 0, 1]) rfl⟩

/-- C9 (amended): `recreate_settings` retries through the legacy
converter only when the first parse fails with `CalledProcessError`; any
other first-parse failure, and a failing retry, yield `None` instead of
raising; a failure raised by the legacy converter itself is not caught
and propagates. -/
theorem adf_recreate_settings_two_stage
    (p : String → Except ADFResults.PyExc STree)
    (l : String → Except ADFResults.PyExc String)
    (u lu m : String) (t : STree) :
    (p u = .ok t → ADFResults.recreate_settings true p l u = .ok (some t))
    ∧ (p u = .error (.otherExc m) → ADFResults.recreate_settings true p l u = .ok none)
    ∧ (p u = .error .calledProcessError → l u = .ok lu →
        ADFResults.recreate_settings true p l u
          = (match p lu with
             | .ok t2 => .ok (some t2)
             | .error _ => .ok none))
    ∧ (∀ e, p u = .error .calledProcessError → l u = .error e →
        ADFResults.recreate_settings true p l u = .error e) := by
  refine ⟨?_, ?_, ?_, ?_⟩
  · intro h
    simp [ADFResults.recreate_settings, h]
  · intro h
    simp [ADFResults.recreate_settings, h]
  · intro h1 h2
    simp [ADFResults.recreate_settings, h1, h2]
  · intro e h1 h2
    simp [ADFResults.recreate_settings, h1, h2]

/-- Witness for C9 (amended): a converter failure after a
`CalledProcessError` parse failure propagates out of
`recreate_settings`. -/
theorem adf_recreate_settings_two_stage_witness :
    parseCPE "some stored input" = .error .calledProcessError
    ∧ legacyFail "some stored input" = .error (.otherExc "legacy conversion failed")
    ∧ ADFResults.recreate_settings true parseCPE legacyFail "some stored input"
        = .error (.otherExc "legacy conversion failed") :=
  ⟨rfl, rfl,
   (adf_recreate_settings_two_stage parseCPE legacyFail "some stored input" "" "" .nil).2.2.2
     (.otherExc "legacy conversion failed") rfl rfl⟩

/-- Counterexample to C9 as stated: with a first parse failing with
`CalledProcessError` and a legacy converter that itself raises, the
failure propagates (no `None` result); and with a first parse failing
with a non-`CalledProcessError` error, no retry happens even though the
converted text would parse — the claimed retry result is not returned. -/
theorem adf_recreate_settings_refuted :
    ADFResults.recreate_settings true parseCPE legacyFail "some stored input"
        = .error (.otherExc "legacy conversion failed")
    ∧ ADFResults.recreate_settings true parseCPE legacyFail "some stored input" ≠ .ok none
    ∧ ADFResults.recreate_settings true parseOnlyConverted legacyOk "some stored input" = .ok none
    ∧ ADFResults.recreate_settings true parseOnlyConverted legacyOk "some stored input"
        ≠ .ok (some STree.nil) := by
  refine ⟨rfl, ?_, rfl, ?_⟩
  · simp [ADFResults.recreate_settings, parseCPE, legacyFail]
  · simp [ADFResults.recreate_settings, parseOnlyConverted, legacyOk]
